import Mathlib

/-!
Verification development for the black-hole particle simulator
(src/blackhole-sim.py).  The numpy length-2 float arrays are modelled as
pairs of real numbers, and float arithmetic as exact real arithmetic.
The embedding covers the configuration constants, the Particle record
with its update operation (lines 47-80), and the per-particle part of
the driver loop in run_simulation (lines 83-106): the capture test
followed by the unconditional update call.
-/

namespace BHSim

noncomputable section

/-- 2D real vector, modelling the numpy length-2 float arrays. -/
@[ext]
structure Vec where
  x : ℝ
  y : ℝ

instance : Add Vec := ⟨fun u v => ⟨u.x + v.x, u.y + v.y⟩⟩

instance : Sub Vec := ⟨fun u v => ⟨u.x - v.x, u.y - v.y⟩⟩

instance : Zero Vec := ⟨⟨0, 0⟩⟩

instance : SMul ℝ Vec := ⟨fun t v => ⟨t * v.x, t * v.y⟩⟩

/-- Euclidean norm of a 2D vector, modelling np.linalg.norm (line 62). -/
def Vec.norm (v : Vec) : ℝ := Real.sqrt (v.x ^ 2 + v.y ^ 2)

/-- Gravitational constant G = 1.0 (line 9). -/
def G : ℝ := 1

/-- Black-hole mass M = 1000.0 (line 10). -/
def M : ℝ := 1000

/-- Simulated speed of light C = 15.0 (line 11). -/
def C : ℝ := 15

/-- TIME_STEP = 0.1 (line 14). -/
def TIME_STEP : ℝ := 1 / 10

/-- Number of simulation steps, STEPS = 1000 (line 15). -/
def STEPS : ℕ := 1000

/-- Particle record (lines 47-54), fields in the order __init__ assigns
them: pos, vel, mass, path, is_captured, is_photon. -/
structure Particle where
  pos : Vec
  vel : Vec
  mass : ℝ
  path : List Vec
  is_captured : Bool
  is_photon : Bool

/-- Particle.__init__ (lines 48-54): the path starts as the singleton
holding the initial position, is_captured starts false. -/
def Particle.make (pos vel : Vec) (mass : ℝ) (ph : Bool) : Particle :=
  { pos := pos, vel := vel, mass := mass, path := [pos],
    is_captured := false, is_photon := ph }

/-- Construction as the driver performs it (line 93): the mass argument
is left at its default 1.0. -/
def mkParticle (pos vel : Vec) (ph : Bool) : Particle :=
  Particle.make pos vel 1 ph

/-- Particle.update (lines 56-80).  Returns immediately when captured
(lines 57-58) or when the distance to the body is zero (lines 63-64);
otherwise applies the Newtonian force, the photon speed correction when
is_photon (lines 75-76), advances the position with the updated velocity
and appends it to the path.  Vector division v / s is modelled as
s⁻¹ • v. -/
def Particle.update (p : Particle) (dt : ℝ) (black_hole_pos : Vec) : Particle :=
  if p.is_captured then p
  else if Vec.norm (black_hole_pos - p.pos) = 0 then p
  else
    let r_vec := black_hole_pos - p.pos
    let r_mag := Vec.norm r_vec
    let force_mag := G * M * p.mass / r_mag ^ 2
    let force_vec := force_mag • (r_mag⁻¹ • r_vec)
    let acceleration := p.mass⁻¹ • force_vec
    let vel1 := p.vel + dt • acceleration
    let vel2 := if p.is_photon then C • ((Vec.norm vel1)⁻¹ • vel1) else vel1
    { p with vel := vel2, pos := p.pos + dt • vel2,
             path := p.path ++ [p.pos + dt • vel2] }

/-- The velocity right after the gravity update of lines 67-72
(force, acceleration, vel += acceleration * dt), before any photon
speed correction. -/
def gravVel (p : Particle) (dt : ℝ) (black_hole_pos : Vec) : Vec :=
  p.vel + dt • (p.mass⁻¹ •
    ((G * M * p.mass / (Vec.norm (black_hole_pos - p.pos)) ^ 2) •
      ((Vec.norm (black_hole_pos - p.pos))⁻¹ • (black_hole_pos - p.pos))))

/-- The velocity at the end of the update body: gravVel, rescaled to
speed C when is_photon (lines 74-76). -/
def clampVel (p : Particle) (dt : ℝ) (black_hole_pos : Vec) : Vec :=
  if p.is_photon then
    C • ((Vec.norm (gravVel p dt black_hole_pos))⁻¹ • gravVel p dt black_hole_pos)
  else gravVel p dt black_hole_pos

/-- Position of the black hole (line 84). -/
def black_hole_pos : Vec := ⟨0, 0⟩

/-- schwarzschild_radius = 2 G M / C^2 (line 85). -/
def schwarzschild_radius : ℝ := 2 * G * M / C ^ 2

/-- Initial particle descriptor, one entry of the PARTICLES list
(lines 27-40): a position (whose vertical component is a placeholder
when offset_factor is present — the source writes None there), a
velocity, the photon flag, and the optional offset_factor. -/
structure PDesc where
  pos : Vec
  vel : Vec
  is_photon : Bool
  offset_factor : Option ℝ

/-- The PARTICLES configuration list (lines 27-40).  The two photon
descriptors carry the placeholder vertical component as 0 (None in the
source); it is overridden at setup. -/
def PARTICLES : List PDesc :=
  [ ⟨⟨100, 0⟩, ⟨0, 15 / 2⟩, false, none⟩,
    ⟨⟨-110, 0⟩, ⟨0, -7⟩, false, none⟩,
    ⟨⟨0, 130⟩, ⟨-13 / 2, 0⟩, false, none⟩,
    ⟨⟨0, -140⟩, ⟨6, 0⟩, false, none⟩,
    ⟨⟨-250, 50⟩, ⟨7, 0⟩, false, none⟩,
    ⟨⟨-250, 0⟩, ⟨C, 0⟩, true, some (3 / 2)⟩,
    ⟨⟨-250, 0⟩, ⟨C, 0⟩, true, some (4 / 5)⟩ ]

/-- Setup of one particle from its descriptor (lines 89-93): copy the
configured position, override its vertical component with
rs * offset_factor when the descriptor has an offset_factor, and build
the Particle with default mass. -/
def resolveDesc (d : PDesc) (rs : ℝ) : Particle :=
  mkParticle
    (match d.offset_factor with
      | some f => ⟨d.pos.x, rs * f⟩
      | none => d.pos)
    d.vel d.is_photon

/-- The particle list as run_simulation builds it, before the first
tick (lines 88-93). -/
def setupParticles (rs : ℝ) : List Particle :=
  PARTICLES.map fun d => resolveDesc d rs

/-- One driver tick for one particle (lines 101-106): the capture test
on the pre-step position, then the unconditional update call. -/
def tickParticle (bh : Vec) (rs dt : ℝ) (p : Particle) : Particle :=
  Particle.update
    (if Vec.norm (p.pos - bh) < rs then { p with is_captured := true } else p)
    dt bh

/-- n driver ticks for one particle (the loop of line 98 restricted to
one particle, which is sound because particles do not interact). -/
def runTicks (bh : Vec) (rs dt : ℝ) : ℕ → Particle → Particle
  | 0, p => p
  | n + 1, p => tickParticle bh rs dt (runTicks bh rs dt n p)

/-- Concrete particle of the capture scenario: position (8, 0), zero
velocity, not a photon. -/
def p8 : Particle := mkParticle ⟨8, 0⟩ ⟨0, 0⟩ false

/-- Concrete particle of the Euler scenario: position (100, 0),
velocity (0, 7.5), not a photon (first PARTICLES entry). -/
def p100 : Particle := mkParticle ⟨100, 0⟩ ⟨0, 15 / 2⟩ false

/-- Concrete photon at (-100, 0) moving at speed C towards the body. -/
def photonA : Particle := mkParticle ⟨-100, 0⟩ ⟨15, 0⟩ true

/-- Concrete photon at (-100, 0) whose velocity is the exact opposite
of one tick of gravitational acceleration, so its gravity-updated
velocity is the zero vector. -/
def photonZ : Particle := mkParticle ⟨-100, 0⟩ ⟨-1 / 100, 0⟩ true

/-- A particle already marked captured. -/
def capturedP : Particle := { mkParticle ⟨8, 0⟩ ⟨0, 0⟩ false with is_captured := true }

@[simp] theorem Vec.add_def (u v : Vec) : u + v = ⟨u.x + v.x, u.y + v.y⟩ := rfl

@[simp] theorem Vec.sub_def (u v : Vec) : u - v = ⟨u.x - v.x, u.y - v.y⟩ := rfl

@[simp] theorem Vec.smul_def (t : ℝ) (v : Vec) : t • v = ⟨t * v.x, t * v.y⟩ := rfl

@[simp] theorem Vec.zero_def : (0 : Vec) = ⟨0, 0⟩ := rfl

/-- Evaluation helper: the norm of a concrete vector. -/
theorem Vec.norm_eval {a b c : ℝ} (hc : 0 ≤ c) (h : a ^ 2 + b ^ 2 = c ^ 2) :
    Vec.norm ⟨a, b⟩ = c := by
  show Real.sqrt (a ^ 2 + b ^ 2) = c
  rw [h, Real.sqrt_sq hc]

theorem Vec.norm_sub_comm (u v : Vec) : Vec.norm (u - v) = Vec.norm (v - u) := by
  simp only [Vec.sub_def]
  show Real.sqrt ((u.x - v.x) ^ 2 + (u.y - v.y) ^ 2)
      = Real.sqrt ((v.x - u.x) ^ 2 + (v.y - u.y) ^ 2)
  congr 1
  ring

theorem Vec.norm_nonneg (v : Vec) : 0 ≤ Vec.norm v := Real.sqrt_nonneg _

theorem Vec.norm_eq_zero_iff (v : Vec) : Vec.norm v = 0 ↔ v = 0 := by
  constructor
  · intro h
    have h' : v.x ^ 2 + v.y ^ 2 ≤ 0 := Real.sqrt_eq_zero'.mp h
    have hx : v.x = 0 := by nlinarith [sq_nonneg v.x, sq_nonneg v.y]
    have hy : v.y = 0 := by nlinarith [sq_nonneg v.x, sq_nonneg v.y]
    simp [Vec.ext_iff, hx, hy]
  · rintro rfl
    show Real.sqrt ((0 : ℝ) ^ 2 + (0 : ℝ) ^ 2) = 0
    simp

theorem Vec.norm_pos_of_ne_zero {v : Vec} (h : v ≠ 0) : 0 < Vec.norm v :=
  lt_of_le_of_ne (Vec.norm_nonneg v)
    (fun h0 => h ((Vec.norm_eq_zero_iff v).mp h0.symm))

theorem Vec.norm_smul_eq (t : ℝ) (v : Vec) :
    Vec.norm (t • v) = |t| * Vec.norm v := by
  simp only [Vec.smul_def]
  show Real.sqrt ((t * v.x) ^ 2 + (t * v.y) ^ 2)
      = |t| * Real.sqrt (v.x ^ 2 + v.y ^ 2)
  rw [show (t * v.x) ^ 2 + (t * v.y) ^ 2 = t ^ 2 * (v.x ^ 2 + v.y ^ 2) by ring,
    Real.sqrt_mul (sq_nonneg t), Real.sqrt_sq_eq_abs]

theorem Vec.smul_smul_eq (t s : ℝ) (v : Vec) : t • (s • v) = (t * s) • v := by
  simp [mul_assoc]

theorem schwarzschild_radius_eval : schwarzschild_radius = 80 / 9 := by
  rw [schwarzschild_radius, G, M, C]; norm_num

theorem update_of_captured {p : Particle} (dt : ℝ) (bh : Vec)
    (h : p.is_captured = true) : p.update dt bh = p := by
  simp [Particle.update, h]

theorem update_of_rmag_zero {p : Particle} (dt : ℝ) {bh : Vec}
    (h : Vec.norm (bh - p.pos) = 0) : p.update dt bh = p := by
  rw [Particle.update]
  by_cases hc : p.is_captured = true
  · rw [if_pos hc]
  · rw [if_neg hc, if_pos h]

theorem update_of_active {p : Particle} (dt : ℝ) {bh : Vec}
    (hc : p.is_captured = false) (hr : Vec.norm (bh - p.pos) ≠ 0) :
    p.update dt bh =
      { p with vel := clampVel p dt bh,
               pos := p.pos + dt • clampVel p dt bh,
               path := p.path ++ [p.pos + dt • clampVel p dt bh] } := by
  rw [Particle.update, if_neg (by simp [hc]), if_neg hr]
  rfl

theorem update_is_captured_eq (p : Particle) (dt : ℝ) (bh : Vec) :
    (p.update dt bh).is_captured = p.is_captured := by
  rw [Particle.update]
  by_cases hc : p.is_captured = true
  · rw [if_pos hc]
  · rw [if_neg hc]
    by_cases hr : Vec.norm (bh - p.pos) = 0
    · rw [if_pos hr]
    · rw [if_neg hr]

theorem update_is_photon_eq (p : Particle) (dt : ℝ) (bh : Vec) :
    (p.update dt bh).is_photon = p.is_photon := by
  rw [Particle.update]
  by_cases hc : p.is_captured = true
  · rw [if_pos hc]
  · rw [if_neg hc]
    by_cases hr : Vec.norm (bh - p.pos) = 0
    · rw [if_pos hr]
    · rw [if_neg hr]

theorem update_path_extends (p : Particle) (dt : ℝ) (bh : Vec) :
    ∃ t, (p.update dt bh).path = p.path ++ t := by
  rw [Particle.update]
  by_cases hc : p.is_captured = true
  · rw [if_pos hc]; exact ⟨[], (List.append_nil _).symm⟩
  · rw [if_neg hc]
    by_cases hr : Vec.norm (bh - p.pos) = 0
    · rw [if_pos hr]; exact ⟨[], (List.append_nil _).symm⟩
    · rw [if_neg hr]; exact ⟨_, rfl⟩

theorem runTicks_succ (bh : Vec) (rs dt : ℝ) (n : ℕ) (p : Particle) :
    runTicks bh rs dt (n + 1) p = tickParticle bh rs dt (runTicks bh rs dt n p) :=
  rfl

theorem tick_of_near {p : Particle} {bh : Vec} {rs : ℝ} (dt : ℝ)
    (h : Vec.norm (p.pos - bh) < rs) :
    tickParticle bh rs dt p = { p with is_captured := true } := by
  rw [tickParticle, if_pos h]
  exact update_of_captured dt bh rfl

theorem tick_of_far {p : Particle} {bh : Vec} {rs : ℝ} (dt : ℝ)
    (h : ¬ Vec.norm (p.pos - bh) < rs) :
    tickParticle bh rs dt p = p.update dt bh := by
  rw [tickParticle, if_neg h]

theorem tick_of_captured {p : Particle} (bh : Vec) (rs dt : ℝ)
    (h : p.is_captured = true) : tickParticle bh rs dt p = p := by
  rw [tickParticle]
  by_cases hd : Vec.norm (p.pos - bh) < rs
  · rw [if_pos hd]
    have hp : ({ p with is_captured := true } : Particle) = p := by
      cases p
      simp_all
    rw [hp]
    exact update_of_captured dt bh h
  · rw [if_neg hd]
    exact update_of_captured dt bh h

theorem tick_captured_mono {p : Particle} (bh : Vec) (rs dt : ℝ)
    (h : p.is_captured = true) :
    (tickParticle bh rs dt p).is_captured = true := by
  rw [tick_of_captured bh rs dt h]; exact h

theorem tick_path_extends (bh : Vec) (rs dt : ℝ) (p : Particle) :
    ∃ t, (tickParticle bh rs dt p).path = p.path ++ t := by
  rw [tickParticle]
  by_cases hd : Vec.norm (p.pos - bh) < rs
  · rw [if_pos hd]
    exact update_path_extends { p with is_captured := true } dt bh
  · rw [if_neg hd]
    exact update_path_extends p dt bh

theorem runTicks_captured_mono {bh : Vec} {rs dt : ℝ} {p : Particle} {n : ℕ}
    (h : (runTicks bh rs dt n p).is_captured = true) (k : ℕ) :
    (runTicks bh rs dt (n + k) p).is_captured = true := by
  induction k with
  | zero => exact h
  | succ k ih =>
    rw [show n + (k + 1) = (n + k) + 1 by omega, runTicks_succ]
    exact tick_captured_mono bh rs dt ih

theorem runTicks_frozen {bh : Vec} {rs dt : ℝ} {p : Particle} {n : ℕ}
    (h : (runTicks bh rs dt n p).is_captured = true) (k : ℕ) :
    runTicks bh rs dt (n + k) p = runTicks bh rs dt n p := by
  induction k with
  | zero => rfl
  | succ k ih =>
    rw [show n + (k + 1) = (n + k) + 1 by omega, runTicks_succ, ih]
    exact tick_of_captured bh rs dt h

theorem gravVel_eq_of_mass_ne {p : Particle} {dt : ℝ} {bh : Vec} (hm : p.mass ≠ 0) :
    gravVel p dt bh =
      p.vel + dt • ((G * M / (Vec.norm (bh - p.pos)) ^ 2) •
        ((Vec.norm (bh - p.pos))⁻¹ • (bh - p.pos))) := by
  have key : ∀ w : Vec,
      p.mass⁻¹ • ((G * M * p.mass / Vec.norm (bh - p.pos) ^ 2) • w)
        = (G * M / Vec.norm (bh - p.pos) ^ 2) • w := by
    intro w
    rw [Vec.smul_smul_eq]
    congr 1
    rw [show p.mass⁻¹ * (G * M * p.mass / Vec.norm (bh - p.pos) ^ 2)
        = p.mass⁻¹ * p.mass * (G * M / Vec.norm (bh - p.pos) ^ 2) by ring,
      inv_mul_cancel₀ hm, one_mul]
  rw [gravVel, key]

theorem clampVel_photon_eq {p : Particle} (dt : ℝ) (bh : Vec)
    (hph : p.is_photon = true) :
    clampVel p dt bh = C • ((Vec.norm (gravVel p dt bh))⁻¹ • gravVel p dt bh) := by
  rw [clampVel, if_pos hph]

theorem clampVel_massive_eq {p : Particle} (dt : ℝ) (bh : Vec)
    (hph : p.is_photon = false) :
    clampVel p dt bh = gravVel p dt bh := by
  rw [clampVel, if_neg (by simp [hph])]

theorem update_vel_active {p : Particle} (dt : ℝ) {bh : Vec}
    (hc : p.is_captured = false) (hr : Vec.norm (bh - p.pos) ≠ 0) :
    (p.update dt bh).vel = clampVel p dt bh := by
  rw [update_of_active dt hc hr]

theorem update_pos_active {p : Particle} (dt : ℝ) {bh : Vec}
    (hc : p.is_captured = false) (hr : Vec.norm (bh - p.pos) ≠ 0) :
    (p.update dt bh).pos = p.pos + dt • clampVel p dt bh := by
  rw [update_of_active dt hc hr]

theorem update_path_active {p : Particle} (dt : ℝ) {bh : Vec}
    (hc : p.is_captured = false) (hr : Vec.norm (bh - p.pos) ≠ 0) :
    (p.update dt bh).path = p.path ++ [p.pos + dt • clampVel p dt bh] := by
  rw [update_of_active dt hc hr]

theorem update_vel_photon {p : Particle} (dt : ℝ) {bh : Vec}
    (hph : p.is_photon = true) (hc : p.is_captured = false)
    (hr : Vec.norm (bh - p.pos) ≠ 0) :
    (p.update dt bh).vel
      = C • ((Vec.norm (gravVel p dt bh))⁻¹ • gravVel p dt bh) := by
  rw [update_vel_active dt hc hr, clampVel_photon_eq dt bh hph]

theorem norm_clamp_of_ne {v : Vec} (hv : v ≠ 0) :
    Vec.norm (C • ((Vec.norm v)⁻¹ • v)) = C := by
  have hpos : 0 < Vec.norm v := Vec.norm_pos_of_ne_zero hv
  rw [Vec.norm_smul_eq, Vec.norm_smul_eq,
    abs_of_pos (show (0 : ℝ) < C by rw [C]; norm_num),
    abs_of_pos (inv_pos.mpr hpos), inv_mul_cancel₀ (ne_of_gt hpos), mul_one]

theorem clamp_zero_eq : C • ((Vec.norm (0 : Vec))⁻¹ • (0 : Vec)) = 0 := by
  simp

theorem p8_dist : Vec.norm (p8.pos - black_hole_pos) = 8 := by
  show Vec.norm ((⟨8, 0⟩ : Vec) - ⟨0, 0⟩) = 8
  rw [Vec.sub_def]
  exact Vec.norm_eval (by norm_num) (by norm_num)

theorem p8_tick : tickParticle black_hole_pos schwarzschild_radius TIME_STEP p8
    = { p8 with is_captured := true } := by
  apply tick_of_near
  rw [p8_dist, schwarzschild_radius_eval]
  norm_num

theorem p8_run1 : runTicks black_hole_pos schwarzschild_radius TIME_STEP 1 p8
    = { p8 with is_captured := true } := by
  have h : runTicks black_hole_pos schwarzschild_radius TIME_STEP 1 p8
      = tickParticle black_hole_pos schwarzschild_radius TIME_STEP p8 := rfl
  rw [h, p8_tick]

theorem p100_dist : Vec.norm (p100.pos - black_hole_pos) = 100 := by
  show Vec.norm ((⟨100, 0⟩ : Vec) - ⟨0, 0⟩) = 100
  rw [Vec.sub_def]
  exact Vec.norm_eval (by norm_num) (by norm_num)

theorem p100_dist2 : Vec.norm (black_hole_pos - p100.pos) = 100 := by
  rw [Vec.norm_sub_comm]
  exact p100_dist

theorem photonA_dist : Vec.norm (black_hole_pos - photonA.pos) = 100 := by
  show Vec.norm ((⟨0, 0⟩ : Vec) - ⟨-100, 0⟩) = 100
  rw [Vec.sub_def]
  exact Vec.norm_eval (by norm_num) (by norm_num)

theorem photonA_gravVel : gravVel photonA TIME_STEP black_hole_pos = ⟨1501 / 100, 0⟩ := by
  rw [gravVel, photonA_dist]
  simp only [photonA, mkParticle, Particle.make, black_hole_pos, G, M, TIME_STEP,
    Vec.sub_def, Vec.smul_def, Vec.add_def, Vec.mk.injEq]
  norm_num

theorem photonA_vel : (Particle.update photonA TIME_STEP black_hole_pos).vel = ⟨15, 0⟩ := by
  rw [update_vel_photon TIME_STEP rfl rfl (by rw [photonA_dist]; norm_num),
    photonA_gravVel,
    show Vec.norm (⟨1501 / 100, 0⟩ : Vec) = 1501 / 100 from
      Vec.norm_eval (by norm_num) (by norm_num)]
  simp only [C, Vec.smul_def, Vec.mk.injEq]
  norm_num

theorem photonZ_dist : Vec.norm (black_hole_pos - photonZ.pos) = 100 := by
  show Vec.norm ((⟨0, 0⟩ : Vec) - ⟨-100, 0⟩) = 100
  rw [Vec.sub_def]
  exact Vec.norm_eval (by norm_num) (by norm_num)

theorem photonZ_gravVel : gravVel photonZ TIME_STEP black_hole_pos = 0 := by
  rw [gravVel, photonZ_dist]
  simp only [photonZ, mkParticle, Particle.make, black_hole_pos, G, M, TIME_STEP,
    Vec.sub_def, Vec.smul_def, Vec.add_def, Vec.zero_def, Vec.mk.injEq]
  norm_num

theorem photonZ_vel : (Particle.update photonZ TIME_STEP black_hole_pos).vel = 0 := by
  rw [update_vel_photon TIME_STEP rfl rfl (by rw [photonZ_dist]; norm_num),
    photonZ_gravVel, clamp_zero_eq]

/-- C4 (confirmed): on every driver tick, for every particle, the
capture test compares the distance from the pre-step position against
schwarzschild_radius = 2 G M / C^2 before the update call runs, and the
particle leaves the tick captured exactly when that distance is
strictly below the radius or it was captured already; with the
program's constants G = 1, M = 1000, C = 15 the particle starting at
(8, 0) is captured on the very first tick. -/
theorem C4_capture_test :
    schwarzschild_radius = 2 * G * M / C ^ 2 ∧
    (∀ (bh : Vec) (rs dt : ℝ) (p : Particle),
      (tickParticle bh rs dt p).is_captured = true ↔
        (Vec.norm (p.pos - bh) < rs ∨ p.is_captured = true)) ∧
    (tickParticle black_hole_pos schwarzschild_radius TIME_STEP p8).is_captured
      = true := by
  refine ⟨rfl, ?_, ?_⟩
  · intro bh rs dt p
    rw [tickParticle]
    by_cases hd : Vec.norm (p.pos - bh) < rs
    · rw [if_pos hd, update_is_captured_eq]
      exact iff_of_true rfl (Or.inl hd)
    · rw [if_neg hd, update_is_captured_eq]
      exact ⟨Or.inr, fun h => h.resolve_left hd⟩
  · rw [p8_tick]

/-- C5 (confirmed): for a captured particle, the step operation is a
no-op that raises no error: the whole record — position, velocity,
mass, both flags, and the path — is returned unchanged. -/
theorem C5_captured_noop (p : Particle) (dt : ℝ) (bh : Vec)
    (h : p.is_captured = true) : p.update dt bh = p :=
  update_of_captured dt bh h

theorem C5_captured_noop_witness :
    Particle.update capturedP TIME_STEP black_hole_pos = capturedP :=
  C5_captured_noop capturedP TIME_STEP black_hole_pos rfl

/-- C6 (confirmed): for an active particle whose position coincides
with the body (r_mag = 0), the step is skipped entirely without error:
the whole record, so in particular velocity, position and path, is
unchanged, and the force computation is never reached. -/
theorem C6_coincident_skip (p : Particle) (dt : ℝ) (bh : Vec)
    (hc : p.is_captured = false) (hr : Vec.norm (bh - p.pos) = 0) :
    p.update dt bh = p :=
  update_of_rmag_zero dt hr

theorem C6_coincident_skip_witness :
    Particle.update (mkParticle ⟨0, 0⟩ ⟨1, 2⟩ false) TIME_STEP black_hole_pos
      = mkParticle ⟨0, 0⟩ ⟨1, 2⟩ false :=
  C6_coincident_skip _ _ _ rfl (by
    show Vec.norm ((⟨0, 0⟩ : Vec) - ⟨0, 0⟩) = 0
    rw [Vec.sub_def]
    exact Vec.norm_eval le_rfl (by norm_num))

/-- C7 (confirmed): the captured flag is monotone over driver ticks —
once a particle is captured after n ticks, it is still captured after
any m ≥ n ticks; no operation resets it to false. -/
theorem C7_captured_monotone (bh : Vec) (rs dt : ℝ) (p : Particle) (n m : ℕ)
    (hnm : n ≤ m) (h : (runTicks bh rs dt n p).is_captured = true) :
    (runTicks bh rs dt m p).is_captured = true := by
  obtain ⟨k, rfl⟩ := Nat.exists_eq_add_of_le hnm
  exact runTicks_captured_mono h k

theorem C7_captured_monotone_witness :
    (runTicks black_hole_pos schwarzschild_radius TIME_STEP 3 p8).is_captured
      = true :=
  C7_captured_monotone black_hole_pos schwarzschild_radius TIME_STEP p8 1 3
    (by norm_num) (by rw [p8_run1])

/-- C9 (confirmed): setup resolves a descriptor carrying an
offset_factor by overriding the vertical position with
rs * offset_factor (whatever placeholder value the descriptor held),
while a descriptor without an offset_factor keeps its given position;
the resolved position is the one recorded as the particle's initial
path entry, before any tick, and the driver's particle list is exactly
the descriptor list resolved once. -/
theorem C9_offset_resolution :
    (∀ (d : PDesc) (rs : ℝ),
      (resolveDesc d rs).pos =
        (match d.offset_factor with
          | some f => (⟨d.pos.x, rs * f⟩ : Vec)
          | none => d.pos) ∧
      (resolveDesc d rs).vel = d.vel ∧
      (resolveDesc d rs).is_photon = d.is_photon ∧
      (resolveDesc d rs).path = [(resolveDesc d rs).pos] ∧
      (resolveDesc d rs).is_captured = false) ∧
    setupParticles schwarzschild_radius
      = PARTICLES.map fun d => resolveDesc d schwarzschild_radius := by
  constructor
  · intro d rs
    cases h : d.offset_factor <;>
      simp [resolveDesc, mkParticle, Particle.make, h]
  · rfl

/-- C1 counterexample: the claim quantifies over every active particle
with r_mag ≠ 0, but for a photon the step does not end with the plain
Euler velocity: photonA (an active photon at (-100, 0) with velocity
(15, 0), r_mag = 100) finishes the step with velocity (15, 0), not the
Euler value (15.01, 0). -/
theorem C1_counterexample :
    photonA.is_captured = false ∧
    Vec.norm (black_hole_pos - photonA.pos) ≠ 0 ∧
    (Particle.update photonA TIME_STEP black_hole_pos).vel ≠
      photonA.vel + TIME_STEP •
        ((G * M / (Vec.norm (black_hole_pos - photonA.pos)) ^ 2) •
          ((Vec.norm (black_hole_pos - photonA.pos))⁻¹
            • (black_hole_pos - photonA.pos))) := by
  refine ⟨rfl, by rw [photonA_dist]; norm_num, fun h => ?_⟩
  rw [photonA_vel,
    ← @gravVel_eq_of_mass_ne photonA TIME_STEP black_hole_pos one_ne_zero,
    photonA_gravVel] at h
  have hx := congrArg Vec.x h
  norm_num at hx

/-- C1 (corrected): for every non-photon particle with non-zero mass
(the data model requires positive mass), active and with r_mag ≠ 0,
the step follows exactly the Euler formulas: the new velocity is
velocity + (G M / r_mag^2) (r_vec / r_mag) dt — the particle's own mass
cancels — and the new position is position + dt times the updated
velocity.  Photons are excluded: their velocity is additionally
rescaled to speed C. -/
theorem C1_euler_nonphoton (p : Particle) (dt : ℝ) (bh : Vec)
    (hph : p.is_photon = false) (hc : p.is_captured = false)
    (hm : p.mass ≠ 0) (hr : Vec.norm (bh - p.pos) ≠ 0) :
    (p.update dt bh).vel =
      p.vel + dt • ((G * M / (Vec.norm (bh - p.pos)) ^ 2) •
        ((Vec.norm (bh - p.pos))⁻¹ • (bh - p.pos))) ∧
    (p.update dt bh).pos = p.pos + dt • (p.update dt bh).vel := by
  constructor
  · rw [update_vel_active dt hc hr, clampVel_massive_eq dt bh hph]
    exact gravVel_eq_of_mass_ne hm
  · rw [update_pos_active dt hc hr, update_vel_active dt hc hr]

theorem C1_euler_nonphoton_witness :
    (Particle.update p100 TIME_STEP black_hole_pos).vel =
      p100.vel + TIME_STEP •
        ((G * M / (Vec.norm (black_hole_pos - p100.pos)) ^ 2) •
          ((Vec.norm (black_hole_pos - p100.pos))⁻¹
            • (black_hole_pos - p100.pos))) ∧
    (Particle.update p100 TIME_STEP black_hole_pos).pos =
      p100.pos + TIME_STEP • (Particle.update p100 TIME_STEP black_hole_pos).vel :=
  C1_euler_nonphoton p100 TIME_STEP black_hole_pos rfl rfl one_ne_zero
    (by rw [p100_dist2]; norm_num)

/-- C2 counterexample: the particle at (8, 0) is captured on tick 0
(active before the tick, captured after it), yet after that tick its
path still holds only the initial entry: length 1, not
1 + (0 + 1) = 2 as the claim predicts. -/
theorem C2_counterexample :
    (runTicks black_hole_pos schwarzschild_radius TIME_STEP 0 p8).is_captured
      = false ∧
    (runTicks black_hole_pos schwarzschild_radius TIME_STEP 1 p8).is_captured
      = true ∧
    (runTicks black_hole_pos schwarzschild_radius TIME_STEP 1 p8).path.length
      ≠ 1 + (0 + 1) := by
  refine ⟨rfl, ?_, ?_⟩
  · rw [p8_run1]
  · rw [p8_run1]
    norm_num [p8, mkParticle, Particle.make]

/-- C2 (corrected): the driver sets the captured flag before it calls
the step, and the step checks the flag first, so on the very tick on
which the capture test fires the step is already a no-op: that tick
appends nothing to the path, and from the capture tick onwards the path
is frozen at its pre-capture value (length 1 + k for a particle that
was active and non-coincident through its first k ticks), not at
1 + (k + 1). -/
theorem C2_capture_tick_noop :
    (∀ (bh : Vec) (rs dt : ℝ) (p : Particle),
      Vec.norm (p.pos - bh) < rs →
        (tickParticle bh rs dt p).is_captured = true ∧
        (tickParticle bh rs dt p).path = p.path) ∧
    (∀ (bh : Vec) (rs dt : ℝ) (p : Particle) (n m : ℕ),
      n ≤ m → (runTicks bh rs dt n p).is_captured = true →
        (runTicks bh rs dt m p).path = (runTicks bh rs dt n p).path) := by
  constructor
  · intro bh rs dt p h
    rw [tick_of_near dt h]
    exact ⟨rfl, rfl⟩
  · intro bh rs dt p n m hnm h
    obtain ⟨k, rfl⟩ := Nat.exists_eq_add_of_le hnm
    rw [runTicks_frozen h k]

theorem C2_capture_tick_noop_witness :
    (tickParticle black_hole_pos schwarzschild_radius TIME_STEP p8).is_captured
      = true ∧
    (tickParticle black_hole_pos schwarzschild_radius TIME_STEP p8).path
      = p8.path :=
  C2_capture_tick_noop.1 black_hole_pos schwarzschild_radius TIME_STEP p8
    (by rw [p8_dist, schwarzschild_radius_eval]; norm_num)

/-- C3 counterexample: photonZ is an active photon with r_mag = 100
whose gravity-updated velocity is the zero vector; its step completes
(the path grows to length 2) but the final speed is 0, not C — the
claim's unconditional "magnitude equals C after every completed step"
fails. -/
theorem C3_counterexample :
    photonZ.is_photon = true ∧
    photonZ.is_captured = false ∧
    Vec.norm (black_hole_pos - photonZ.pos) ≠ 0 ∧
    (Particle.update photonZ TIME_STEP black_hole_pos).path.length = 2 ∧
    Vec.norm ((Particle.update photonZ TIME_STEP black_hole_pos).vel) ≠ C := by
  refine ⟨rfl, rfl, by rw [photonZ_dist]; norm_num, ?_, ?_⟩
  · rw [update_path_active TIME_STEP rfl (by rw [photonZ_dist]; norm_num)]
    norm_num [photonZ, mkParticle, Particle.make]
  · rw [photonZ_vel, show Vec.norm 0 = 0 from (Vec.norm_eq_zero_iff 0).mpr rfl, C]
    norm_num

/-- C3 (corrected): for a photon whose gravity-updated velocity is
non-zero, every completed step ends with speed exactly C and with the
direction of the gravity-updated velocity: the final velocity is that
vector scaled by the positive factor C divided by its norm. -/
theorem C3_photon_speed_clamp (p : Particle) (dt : ℝ) (bh : Vec)
    (hph : p.is_photon = true) (hc : p.is_captured = false)
    (hr : Vec.norm (bh - p.pos) ≠ 0) (hv : gravVel p dt bh ≠ 0) :
    Vec.norm ((p.update dt bh).vel) = C ∧
    (p.update dt bh).vel
      = (C / Vec.norm (gravVel p dt bh)) • gravVel p dt bh ∧
    0 < C / Vec.norm (gravVel p dt bh) := by
  have hpos : 0 < Vec.norm (gravVel p dt bh) := Vec.norm_pos_of_ne_zero hv
  refine ⟨?_, ?_, ?_⟩
  · rw [update_vel_photon dt hph hc hr]
    exact norm_clamp_of_ne hv
  · rw [update_vel_photon dt hph hc hr, Vec.smul_smul_eq, div_eq_mul_inv]
  · exact div_pos (by rw [C]; norm_num) hpos

theorem C3_photon_speed_clamp_witness :
    Vec.norm ((Particle.update photonA TIME_STEP black_hole_pos).vel) = C ∧
    (Particle.update photonA TIME_STEP black_hole_pos).vel =
      (C / Vec.norm (gravVel photonA TIME_STEP black_hole_pos)) •
        gravVel photonA TIME_STEP black_hole_pos ∧
    0 < C / Vec.norm (gravVel photonA TIME_STEP black_hole_pos) :=
  C3_photon_speed_clamp photonA TIME_STEP black_hole_pos rfl rfl
    (by rw [photonA_dist]; norm_num)
    (by
      rw [photonA_gravVel]
      simp only [ne_eq, Vec.zero_def, Vec.mk.injEq, not_and]
      intro h
      norm_num at h)

theorem runTicks_active_state {bh : Vec} {rs dt : ℝ} (hrs : 0 < rs) :
    ∀ (n : ℕ) (p : Particle), p.is_captured = false →
      (∀ k, k < n → rs ≤ Vec.norm ((runTicks bh rs dt k p).pos - bh)) →
      (runTicks bh rs dt n p).is_captured = false ∧
      (runTicks bh rs dt n p).path.length = p.path.length + n := by
  intro n
  induction n with
  | zero => intro p h0 _; exact ⟨h0, rfl⟩
  | succ n ih =>
    intro p h0 hact
    obtain ⟨ihc, ihl⟩ := ih p h0 (fun k hk => hact k (by omega))
    have hd : rs ≤ Vec.norm ((runTicks bh rs dt n p).pos - bh) := hact n (by omega)
    have hfar : ¬ Vec.norm ((runTicks bh rs dt n p).pos - bh) < rs := not_lt.mpr hd
    have hnz : Vec.norm (bh - (runTicks bh rs dt n p).pos) ≠ 0 := by
      rw [Vec.norm_sub_comm]
      exact ne_of_gt (lt_of_lt_of_le hrs hd)
    rw [runTicks_succ, tick_of_far dt hfar, update_of_active dt ihc hnz]
    refine ⟨ihc, ?_⟩
    show ((runTicks bh rs dt n p).path ++ [_]).length = p.path.length + (n + 1)
    rw [List.length_append, ihl]
    simp only [List.length_cons, List.length_nil]
    omega

/-- C8 (confirmed): every particle's path starts as the singleton of
its initial position; over any number of driver ticks the path only
ever grows by appending at the end (never shrinks or reorders); and a
particle that stays at distance at least rs > 0 from the body for its
first n ticks (hence active and non-coincident) gains exactly one path
entry per tick: its path length is the initial length plus n. -/
theorem C8_path_invariants :
    (∀ (pos vel : Vec) (ph : Bool), (mkParticle pos vel ph).path = [pos]) ∧
    (∀ (bh : Vec) (rs dt : ℝ) (p : Particle) (n : ℕ),
      ∃ t, (runTicks bh rs dt n p).path = p.path ++ t) ∧
    (∀ (bh : Vec) (rs dt : ℝ) (p : Particle) (n : ℕ),
      0 < rs → p.is_captured = false →
      (∀ k, k < n → rs ≤ Vec.norm ((runTicks bh rs dt k p).pos - bh)) →
      (runTicks bh rs dt n p).path.length = p.path.length + n) := by
  refine ⟨fun pos vel ph => rfl, ?_, ?_⟩
  · intro bh rs dt p n
    induction n with
    | zero => exact ⟨[], (List.append_nil _).symm⟩
    | succ n ih =>
      obtain ⟨t, ht⟩ := ih
      obtain ⟨s, hs⟩ := tick_path_extends bh rs dt (runTicks bh rs dt n p)
      refine ⟨t ++ s, ?_⟩
      rw [runTicks_succ, hs, ht, List.append_assoc]
  · intro bh rs dt p n hrs h0 hact
    exact (runTicks_active_state hrs n p h0 hact).2

theorem C8_path_invariants_witness :
    (runTicks black_hole_pos schwarzschild_radius TIME_STEP 1 p100).path.length
      = 2 := by
  have hact : ∀ k, k < 1 →
      schwarzschild_radius ≤ Vec.norm
        ((runTicks black_hole_pos schwarzschild_radius TIME_STEP k p100).pos
          - black_hole_pos) := by
    intro k hk
    have hk0 : k = 0 := by omega
    subst hk0
    show schwarzschild_radius ≤ Vec.norm (p100.pos - black_hole_pos)
    rw [p100_dist, schwarzschild_radius_eval]
    norm_num
  have h := C8_path_invariants.2.2 black_hole_pos schwarzschild_radius TIME_STEP
    p100 1 (by rw [schwarzschild_radius_eval]; norm_num) rfl hact
  rw [h]
  rfl

/-- C10 (confirmed): the photon clamp divides by the norm of the
freshly updated velocity with no zero guard; that divisor vanishes
exactly when the updated velocity is the zero vector, the clamp yields
speed exactly C under the non-zero precondition, and at the zero vector
the unguarded division degenerates — in the real-number model it
returns the zero velocity instead of a speed-C one. -/
theorem C10_clamp_division (p : Particle) (dt : ℝ) (bh : Vec)
    (hph : p.is_photon = true) (hc : p.is_captured = false)
    (hr : Vec.norm (bh - p.pos) ≠ 0) :
    (p.update dt bh).vel
      = C • ((Vec.norm (gravVel p dt bh))⁻¹ • gravVel p dt bh) ∧
    (Vec.norm (gravVel p dt bh) = 0 ↔ gravVel p dt bh = 0) ∧
    (gravVel p dt bh ≠ 0 → Vec.norm ((p.update dt bh).vel) = C) ∧
    (gravVel p dt bh = 0 → (p.update dt bh).vel = 0) := by
  refine ⟨update_vel_photon dt hph hc hr, Vec.norm_eq_zero_iff _, ?_, ?_⟩
  · intro hv
    rw [update_vel_photon dt hph hc hr]
    exact norm_clamp_of_ne hv
  · intro h0
    rw [update_vel_photon dt hph hc hr, h0]
    exact clamp_zero_eq

theorem C10_clamp_division_witness :
    (Particle.update photonA TIME_STEP black_hole_pos).vel
      = C • ((Vec.norm (gravVel photonA TIME_STEP black_hole_pos))⁻¹ •
          gravVel photonA TIME_STEP black_hole_pos) ∧
    (Vec.norm (gravVel photonA TIME_STEP black_hole_pos) = 0 ↔
      gravVel photonA TIME_STEP black_hole_pos = 0) ∧
    (gravVel photonA TIME_STEP black_hole_pos ≠ 0 →
      Vec.norm ((Particle.update photonA TIME_STEP black_hole_pos).vel) = C) ∧
    (gravVel photonA TIME_STEP black_hole_pos = 0 →
      (Particle.update photonA TIME_STEP black_hole_pos).vel = 0) :=
  C10_clamp_division photonA TIME_STEP black_hole_pos rfl rfl
    (by rw [photonA_dist]; norm_num)

end

end BHSim
